import Mathlib

/-!
Verification of the crawl-cache-extract-search engine of the
`doxygen-docs-mcp` repository (`src/enhanced-crawler.ts`), as a shallow
embedding in Lean 4.

Modelling conventions:
* JavaScript strings are modelled by `String` / `List Char`; the inputs of
  interest are ASCII, where `Char.toLower` agrees with JS `toLowerCase`,
  and Lean character counts agree with JS UTF-16 lengths.
* JS `string.substring`/`indexOf`/`includes`/`trim`/`split` are embedded by
  the explicit list functions below; `Math.max(0, a - b)` coincides with
  truncated `Nat` subtraction.
* The external HTTP fetch is a parameter `net : String → Except String String`
  (`.error` covers both a non-ok HTTP status and a network failure; messages
  follow the source's `Error` texts).  Thrown `Error`s are `Except.error`.
* The cheerio DOM selections are parameters gathered in `HtmlOps`: each field
  returns, for a page body, the raw data the source reads off the selected
  elements.  All logic applied to that data (trimming, guards, URL joining,
  dedup, tokenization) is embedded from the source.
* `Date.now()` is modelled as a `now : Nat` parameter, constant within a
  single top-level operation.
-/

/-! ## JS string primitives -/

/-- JS whitespace characters relevant to ASCII inputs (`\s`, `trim`). -/
def isJsSpace (c : Char) : Bool :=
  c = ' ' || c = '\t' || c = '\n' || c = '\r' || c = '\x0b' || c = '\x0c'

/-- JS regex word character `\w` = `[A-Za-z0-9_]`. -/
def isWordChar (c : Char) : Bool :=
  (('a' ≤ c && c ≤ 'z') || ('A' ≤ c && c ≤ 'Z') || ('0' ≤ c && c ≤ '9') || c = '_')

/-- `String.prototype.toLowerCase` on ASCII text. -/
def toLowerL (l : List Char) : List Char := l.map Char.toLower

/-- `String.prototype.trim` (both ends). -/
def jsTrim (l : List Char) : List Char :=
  ((l.dropWhile isJsSpace).reverse.dropWhile isJsSpace).reverse

def jsTrimS (s : String) : String := String.mk (jsTrim s.data)

/-- `haystack.indexOf(needle)`: index of the first occurrence, `none` for -1.
`indexOf` of the empty string is `some 0`, as in JS. -/
def indexOfSub : List Char → List Char → Option Nat
  | [], needle => if needle = [] then some 0 else none
  | c :: t, needle =>
    if needle.isPrefixOf (c :: t) then some 0
    else (indexOfSub t needle).map (· + 1)

/-- `haystack.includes(needle)` (substring containment). -/
def containsSub (hay needle : List Char) : Bool := (indexOfSub hay needle).isSome

def containsSubS (hay needle : String) : Bool := containsSub hay.data needle.data

/-- `s.startsWith(p)`. -/
def jsStartsWith (s p : String) : Bool := p.data.isPrefixOf s.data

/-- `s.endsWith(p)`. -/
def jsEndsWith (s p : String) : Bool := p.data.reverse.isPrefixOf s.data.reverse

/-- Split a character list at every separator satisfying `p`
(keeping empty fields), like JS `split` on a single-character regex. -/
def splitP (p : Char → Bool) (l : List Char) : List (List Char) :=
  l.foldr
    (fun c acc =>
      match acc with
      | [] => [[c]]
      | w :: ws => if p c then [] :: w :: ws else (c :: w) :: ws)
    [[]]

/-- JS `trimmed.split(/\s+/)` for an already-trimmed string: the non-empty
whitespace-separated fields, except that the empty string yields `[""]`. -/
def jsSplitWs (l : List Char) : List (List Char) :=
  let parts := (splitP isJsSpace l).filter (fun w => ¬ w.isEmpty)
  if parts.isEmpty then [[]] else parts

/-- JS `parts.join(" ")`. -/
def joinSpace : List (List Char) → List Char
  | [] => []
  | [w] => w
  | w :: ws => w ++ ' ' :: joinSpace ws

/-! ## Prototype tokenizers (`extract*` private methods) -/

/-- Scanner for the regex `/(\w+)\s*\(/`: leftmost maximal `\w+` run that is
followed (after optional whitespace) by `'('`; returns the captured run.
Fuel is the remaining scan length; each step consumes at least one
character, so `fuel = l.length` is always enough. -/
def scanMethodNameAux : Nat → List Char → Option (List Char)
  | 0, _ => none
  | _, [] => none
  | fuel + 1, c :: rest =>
    if isWordChar c then
      if ((rest.dropWhile isWordChar).dropWhile isJsSpace).head? = some '(' then
        some (c :: rest.takeWhile isWordChar)
      else scanMethodNameAux fuel (rest.dropWhile isWordChar)
    else scanMethodNameAux fuel rest

def scanMethodName (l : List Char) : Option (List Char) :=
  scanMethodNameAux l.length l

/-- `extractMethodName`: `prototype.match(/(\w+)\s*\()/`'s first capture,
or `"unknown"` when the regex does not match. -/
def extractMethodName (prototype : String) : String :=
  match scanMethodName prototype.data with
  | some run => String.mk run
  | none => "unknown"

/-- `extractPropertyName`: last whitespace token of the trimmed prototype;
an empty token (empty prototype) is falsy and yields `"unknown"`. -/
def extractPropertyName (prototype : String) : String :=
  let parts := jsSplitWs (jsTrim prototype.data)
  match parts.getLast? with
  | some w => if w.isEmpty then "unknown" else String.mk w
  | none => "unknown"

/-- `extractPropertyType`: all tokens but the last, joined by a space;
empty yields `"unknown"`. -/
def extractPropertyType (prototype : String) : String :=
  let parts := jsSplitWs (jsTrim prototype.data)
  let r := joinSpace parts.dropLast
  if r.isEmpty then "unknown" else String.mk r

/-- `extractParameters`: the regex `/\((.*?)\)/` — the text between the first
`'('` and the first `')'` after it, `""` when there is no match.  (Bodies
are taken newline-free; JS `.` does not match a newline.) -/
def extractParameters (prototype : String) : String :=
  match prototype.data.dropWhile (fun c => ¬ c = '(') with
  | [] => ""
  | _ :: rest =>
    if (rest.dropWhile (fun c => ¬ c = ')')).isEmpty then ""
    else String.mk (rest.takeWhile (fun c => ¬ c = ')'))

/-- `extractReturnType`: tokens of `prototype.split("(")[0]` minus the last
(the method name), joined by a space; empty (or empty prefix) yields
`"void"`. -/
def extractReturnType (prototype : String) : String :=
  let beforeParen := prototype.data.takeWhile (fun c => ¬ c = '(')
  if beforeParen.isEmpty then "void"
  else
    let parts := jsSplitWs (jsTrim beforeParen)
    let r := joinSpace parts.dropLast
    if r.isEmpty then "void" else String.mk r

/-- `extractVisibility`: the literal word checks of the source. -/
def extractVisibility (prototype : String) : String :=
  if containsSubS prototype "private" then "private"
  else if containsSubS prototype "protected" then "protected"
  else "public"

/-! ## Snippets (`createSnippetFromText`) -/

/-- `createSnippetFromText(content, query)`: context of 100 characters on
each side of the first case-insensitive occurrence of the query, with
ellipses where truncated, trimmed; with no occurrence, the first 200
characters of the body followed by `"..."`.  `queryIndex - 100` uses `Nat`
subtraction, which is exactly `Math.max(0, queryIndex - 100)`. -/
def createSnippetFromText (content query : String) : String :=
  let contentL := content.data
  let queryLower := toLowerL query.data
  let contentLower := toLowerL contentL
  match indexOfSub contentLower queryLower with
  | none => String.mk (contentL.take 200 ++ "...".data)
  | some queryIndex =>
    let start := queryIndex - 100
    let stop := min contentL.length (queryIndex + query.data.length + 100)
    let snippet := (contentL.take stop).drop start
    let snippet := if 0 < start then "...".data ++ snippet else snippet
    let snippet := if stop < contentL.length then snippet ++ "...".data else snippet
    String.mk (jsTrim snippet)

/-! ## Data model (the exported interfaces of `enhanced-crawler.ts`) -/

structure ParameterInfo where
  name : String
  type : String
  description : String
deriving DecidableEq, Repr

structure FunctionInfo where
  name : String
  url : String
  description : String
  signature : String
  parameters : List ParameterInfo
  returnType : String
deriving DecidableEq, Repr

structure ClassInfo where
  name : String
  url : String
  description : String
  «namespace» : Option String := none
  «section» : Option String := none
deriving DecidableEq, Repr

structure ModuleInfo where
  name : String
  url : String
  description : String
  classes : List ClassInfo
  functions : List FunctionInfo
deriving DecidableEq, Repr

structure FileInfo where
  name : String
  url : String
  description : String
  path : String
  classes : List ClassInfo
  functions : List FunctionInfo
deriving DecidableEq, Repr

structure NavigationStructure where
  mainPage : String
  relatedPages : List String
  modules : List ModuleInfo
  classes : List ClassInfo
  files : List FileInfo
deriving DecidableEq, Repr

/-- A method entry of `ClassDetails.methods`; `visibility` is one of
`"public"`, `"private"`, `"protected"`. -/
structure MethodInfo where
  name : String
  description : String
  parameters : String
  returnType : String
  visibility : String
deriving DecidableEq, Repr

/-- A property entry of `ClassDetails.properties`. -/
structure PropertyInfo where
  name : String
  type : String
  description : String
  visibility : String
deriving DecidableEq, Repr

structure InheritanceInfo where
  baseClasses : List String
  derivedClasses : List String
deriving DecidableEq, Repr

/-- `ClassDetails extends ClassInfo`; the spread `...classInfo` is the
`info` field. -/
structure ClassDetails where
  info : ClassInfo
  methods : List MethodInfo
  properties : List PropertyInfo
  inheritance : InheritanceInfo
deriving DecidableEq, Repr

/-- An entry of the search index (`PageIndex`); `type` is one of the
source's string literals `"class" | "function" | ... | "related"`. -/
structure PageIndex where
  url : String
  title : String
  content : String
  type : String
  «section» : String
  timestamp : Nat
deriving DecidableEq, Repr

structure SearchIndex where
  pages : List PageIndex
  timestamp : Nat
  baseUrl : String
deriving DecidableEq, Repr

structure SearchResult where
  title : String
  url : String
  content : String
  type : String
  «section» : String
deriving DecidableEq, Repr

/-! ## Cheerio selections as parameters

Each field returns the raw data the source reads from the elements that the
corresponding cheerio selector would produce on a page body.  A missing
`href` attribute is the empty string (both are falsy under the source's
`if (href ...)` guards); element-presence checks (`$x.length`) are `Option`
or the `hasLink` flag.  Text fields are the raw `.text()` values — the
source's `.trim()` calls are applied in the embedded logic below. -/

/-- An anchor of the navigation containers (`.tabs, .navpath, ...` then
`find("a")`). -/
structure NavAnchor where
  href : String
  text : String

/-- A `tr` row of `modules.html` / `files.html`: whether it contains a
link, the link's `href` and text, and the last `td`'s text. -/
structure TableRow where
  hasLink : Bool
  href : String
  linkText : String
  lastTd : String

/-- An anchor matched by `a[href*='class'], a[href*='struct'],
a[href*='interface']`, with the description fallbacks read nearby
(`parent().find(".brief").text()` and `closest("tr").find("td").last().text()`). -/
structure ClassAnchor where
  href : String
  text : String
  briefText : String
  rowText : String

/-- A `dt` element: its first anchor (if any) and the following `dd`'s text. -/
structure DtEntry where
  hasLink : Bool
  href : String
  text : String
  ddText : String

/-- A `.memitem` block: the `.memproto` and `.memdoc` texts, `none` when the
sub-element is absent (`$x.length` falsy). -/
structure MemItem where
  protoText : Option String
  docText : Option String

/-- A `.memberdecls .memItemLeft / .memItemRight` cell: its text and the
text of `$el.next()`. -/
structure MemberCell where
  text : String
  nextText : String

/-- The cheerio selections used by the crawler, per page body. -/
structure HtmlOps where
  navAnchors : String → List NavAnchor
  tableRows : String → List TableRow
  classAnchors : String → List ClassAnchor
  dtEntries : String → List DtEntry
  memItems : String → List MemItem
  memberCells : String → List MemberCell
  inheritTexts : String → List String
  functionHrefs : String → List String

/-! ## Pure fetch oracle

`listClasses`, `getNavigationStructure`, `getClassDetails` and `searchDocs`
are embedded against `fetchPage : String → Except String String`, the
behaviour of `this.fetchPage` at a fixed network and time: by the cache
theorems below, `fetchPage` is a function of the URL alone once the network
responses and the clock are fixed.  The stateful cache layer itself is
embedded separately (`fetchPageSt`, `getFunctionsSt`). -/

/-- `getModules`: rows of `modules.html` that contain a link with a
non-empty `href` and non-empty trimmed text; a fetch failure is swallowed
and yields the rows collected so far (here: none). -/
def getModules (fetchPage : String → Except String String) (html : HtmlOps)
    (baseUrl : String) : List ModuleInfo :=
  match fetchPage (baseUrl ++ "/modules.html") with
  | .error _ => []
  | .ok content =>
    (html.tableRows content).foldl
      (fun ms r =>
        if r.hasLink && r.href != "" && jsTrimS r.linkText != "" then
          ms ++ [{ name := jsTrimS r.linkText, url := baseUrl ++ "/" ++ r.href,
                   description := jsTrimS r.lastTd, classes := [], functions := [] }]
        else ms)
      []

/-- `getFiles`: like `getModules` on `files.html`, additionally requiring
`href.endsWith(".html")`; `path` is the link text. -/
def getFiles (fetchPage : String → Except String String) (html : HtmlOps)
    (baseUrl : String) : List FileInfo :=
  match fetchPage (baseUrl ++ "/files.html") with
  | .error _ => []
  | .ok content =>
    (html.tableRows content).foldl
      (fun fs r =>
        if r.hasLink && r.href != "" && jsTrimS r.linkText != "" && jsEndsWith r.href ".html" then
          fs ++ [{ name := jsTrimS r.linkText, url := baseUrl ++ "/" ++ r.href,
                   description := jsTrimS r.lastTd, path := jsTrimS r.linkText,
                   classes := [], functions := [] }]
        else fs)
      []

/-- The three candidate class listing pages, in the source's order. -/
def possibleClassPages : List String := ["annotated.html", "classes.html", "hierarchy.html"]

/-- One class candidate: push unless a class of the same exact name was
already recorded (`!classes.some(c => c.name === name)`). -/
def pushClassIfNew (classes : List ClassInfo) (c : ClassInfo) : List ClassInfo :=
  if classes.any (fun c' => c'.name == c.name) then classes else classes ++ [c]

/-- Processing of one listing page body in `listClasses`: the
`a[href*='class'], a[href*='struct'], a[href*='interface']` scan followed by
the `dt` definition-list scan, both deduplicating by exact name against
everything collected so far. -/
def listClassesPage (html : HtmlOps) (baseUrl page content : String)
    (classes : List ClassInfo) : List ClassInfo :=
  let afterAnchors :=
    (html.classAnchors content).foldl
      (fun cs a =>
        let name := jsTrimS a.text
        if a.href != "" && name != "" && !cs.any (fun c => c.name == name) then
          let url := if jsStartsWith a.href "http" then a.href else baseUrl ++ "/" ++ a.href
          let description := if a.briefText != "" then a.briefText
                             else if a.rowText != "" then a.rowText else ""
          cs ++ [{ name := name, url := url, description := jsTrimS description,
                   «section» := some page }]
        else cs)
      classes
  (html.dtEntries content).foldl
    (fun cs d =>
      let name := jsTrimS d.text
      if d.hasLink && d.href != "" && name != "" &&
          (containsSubS d.href "class" || containsSubS d.href "struct") then
        let url := if jsStartsWith d.href "http" then d.href else baseUrl ++ "/" ++ d.href
        pushClassIfNew cs { name := name, url := url, description := jsTrimS d.ddText,
                            «section» := some page }
      else cs)
    afterAnchors

/-- `listClasses`: empty for a falsy base URL; otherwise scans the three
listing pages, swallowing (logging) any per-page fetch failure. -/
def listClasses (fetchPage : String → Except String String) (html : HtmlOps)
    (baseUrl : String) : List ClassInfo :=
  if baseUrl = "" then []
  else
    possibleClassPages.foldl
      (fun classes page =>
        match fetchPage (baseUrl ++ "/" ++ page) with
        | .error _ => classes
        | .ok content => listClassesPage html baseUrl page content classes)
      []

/-- `getNavigationStructure`: fails exactly when `index.html` cannot be
fetched; the modules/classes/files sub-extractions are wrapped in
`try/catch` in the source and are total functions here. -/
def getNavigationStructure (fetchPage : String → Except String String) (html : HtmlOps)
    (baseUrl : String) : Except String NavigationStructure :=
  match fetchPage (baseUrl ++ "/index.html") with
  | .error e => .error e
  | .ok indexContent =>
    let relatedPages :=
      (html.navAnchors indexContent).foldl
        (fun acc a =>
          if a.href != "" && !jsStartsWith a.href "#" && !jsStartsWith a.href "http" then
            if containsSubS (jsTrimS a.text).toLower "related" || containsSubS a.href "pages" then
              acc ++ [baseUrl ++ "/" ++ a.href]
            else acc
          else acc)
        []
    .ok { mainPage := baseUrl ++ "/index.html",
          relatedPages := relatedPages,
          modules := getModules fetchPage html baseUrl,
          classes := listClasses fetchPage html baseUrl,
          files := getFiles fetchPage html baseUrl }

/-! ## Class details (`getClassDetails`) -/

/-- The match predicate of `classes.find(...)` in `getClassDetails`:
exact name, case-insensitively equal name, or name containing the query —
a single disjunction evaluated per list entry. -/
def classNameMatches (className : String) (c : ClassInfo) : Bool :=
  c.name == className ||
  String.mk (toLowerL c.name.data) == String.mk (toLowerL className.data) ||
  containsSub c.name.data className.data

/-- Scanner for `/Inherits\s+(.+)/` (resp. `Inherited by`): the capture
after the first occurrence of the marker that is followed by whitespace;
`(.+)` greedily takes the rest, backtracking one whitespace character when
nothing else follows.  Texts are taken newline-free. -/
def markerCapture : Nat → List Char → List Char → Option (List Char)
  | 0, _, _ => none
  | _, _, [] => none
  | fuel + 1, marker, c :: rest =>
    if marker.isPrefixOf (c :: rest) then
      let after := (c :: rest).drop marker.length
      let ws := after.takeWhile isJsSpace
      let rem := after.dropWhile isJsSpace
      if ws.isEmpty then markerCapture fuel marker rest
      else if ¬ rem.isEmpty then some rem
      else if 2 ≤ ws.length then some (ws.drop (ws.length - 1))
      else markerCapture fuel marker rest
    else markerCapture fuel marker rest

/-- `extractBaseClasses`: for each `.inherit` text containing `"Inherits"`,
the comma-split, trimmed capture of `/Inherits\s+(.+)/`. -/
def extractBaseClasses (texts : List String) : List String :=
  texts.foldl
    (fun bases t =>
      if containsSubS t "Inherits" then
        match markerCapture t.data.length "Inherits".data t.data with
        | some cap => bases ++ ((splitP (fun c => c = ',') cap).map (fun w => String.mk (jsTrim w)))
        | none => bases
      else bases)
    []

/-- `extractDerivedClasses`: the same for `"Inherited by"`. -/
def extractDerivedClasses (texts : List String) : List String :=
  texts.foldl
    (fun derived t =>
      if containsSubS t "Inherited by" then
        match markerCapture t.data.length "Inherited by".data t.data with
        | some cap => derived ++ ((splitP (fun c => c = ',') cap).map (fun w => String.mk (jsTrim w)))
        | none => derived
      else derived)
    []

/-- The `.memitem` scan of `getClassDetails` (first 15 blocks): a block with
both a prototype and a doc is a method when the prototype contains `(` and
`)`, otherwise a property. -/
def scanMemItems (items : List MemItem) : List MethodInfo × List PropertyInfo :=
  (items.take 15).foldl
    (fun (acc : List MethodInfo × List PropertyInfo) item =>
      match item.protoText, item.docText with
      | some proto, some doc =>
        let prototypeText := jsTrimS proto
        let docText := jsTrimS doc
        if containsSubS prototypeText "(" && containsSubS prototypeText ")" then
          (acc.1 ++ [{ name := extractMethodName prototypeText,
                       description := docText,
                       parameters := extractParameters prototypeText,
                       returnType := extractReturnType prototypeText,
                       visibility := extractVisibility prototypeText }], acc.2)
        else
          (acc.1, acc.2 ++ [{ name := extractPropertyName prototypeText,
                              type := extractPropertyType prototypeText,
                              description := docText,
                              visibility := extractVisibility prototypeText }])
      | _, _ => acc)
    ([], [])

/-- The `.memberdecls` member-list scan (first 10 cells), supplementing the
`.memitem` scan without cross-scan deduplication. -/
def scanMemberCells (cells : List MemberCell) (acc : List MethodInfo × List PropertyInfo) :
    List MethodInfo × List PropertyInfo :=
  (cells.take 10).foldl
    (fun (acc : List MethodInfo × List PropertyInfo) cell =>
      let text := jsTrimS cell.text
      if text != "" then
        if containsSubS text "(" && containsSubS text ")" then
          let name := extractMethodName text
          if name != "unknown" then
            (acc.1 ++ [{ name := name, description := jsTrimS cell.nextText,
                         parameters := extractParameters text,
                         returnType := extractReturnType text,
                         visibility := extractVisibility text }], acc.2)
          else acc
        else if !containsSubS text "typedef" && !containsSubS text "#define" then
          let name := extractPropertyName text
          if name != "unknown" then
            (acc.1, acc.2 ++ [{ name := name, type := extractPropertyType text,
                                description := jsTrimS cell.nextText,
                                visibility := extractVisibility text }])
          else acc
        else acc
      else acc)
    acc

/-- `getClassDetails`: locate a class by `classes.find(...)` over
`listClasses`, fetch its page, scan members and inheritance.  `Ok none`
is the source's `null` (no matching class). -/
def getClassDetails (fetchPage : String → Except String String) (html : HtmlOps)
    (baseUrl className : String) : Except String (Option ClassDetails) :=
  let classes := listClasses fetchPage html baseUrl
  match classes.find? (classNameMatches className) with
  | none => .ok none
  | some classInfo =>
    match fetchPage classInfo.url with
    | .error e => .error e
    | .ok content =>
      let fromItems := scanMemItems (html.memItems content)
      let both := scanMemberCells (html.memberCells content) fromItems
      .ok (some { info := classInfo,
                  methods := both.1,
                  properties := both.2,
                  inheritance := { baseClasses := extractBaseClasses (html.inheritTexts content),
                                   derivedClasses := extractDerivedClasses (html.inheritTexts content) } })

/-! ## Query engine (`searchDocs`) -/

/-- The hit test of the search loop: case-insensitive containment of the
query in the page's title or body. -/
def pageMatches (queryLower : List Char) (p : PageIndex) : Bool :=
  containsSub (toLowerL p.title.data) queryLower ||
  containsSub (toLowerL p.content.data) queryLower

/-- Rendering of one hit as a `SearchResult` with its snippet. -/
def toSearchResult (query : String) (p : PageIndex) : SearchResult :=
  { title := p.title, url := p.url,
    content := createSnippetFromText p.content query,
    type := p.type, «section» := p.«section» }

/-- The sort key test: `a.title.toLowerCase().includes(queryLower)`. -/
def titleMatches (queryLower : List Char) (r : SearchResult) : Bool :=
  containsSub (toLowerL r.title.data) queryLower

/-- The comparator `(a, b) => bTitle - aTitle` passed to `results.sort`. -/
def cmpByTitleMatch (queryLower : List Char) (a b : SearchResult) : Int :=
  (if titleMatches queryLower b then 1 else 0) - (if titleMatches queryLower a then 1 else 0)

/-- Stable insertion: place `x` before the first element `y` with
`cmp x y ≤ 0`.  Folding `insertStable` from the right is the canonical
stable sort for a comparator — `Array.prototype.sort` is stable (ES2019),
and all stable sorts agree, so this is the embedding of `results.sort`. -/
def insertStable (cmp : SearchResult → SearchResult → Int) (x : SearchResult) :
    List SearchResult → List SearchResult
  | [] => [x]
  | y :: ys => if cmp x y ≤ 0 then x :: y :: ys else y :: insertStable cmp x ys

def sortStable (cmp : SearchResult → SearchResult → Int) (l : List SearchResult) :
    List SearchResult :=
  l.foldr (insertStable cmp) []

/-- The collection loop of `searchDocs`: walk the index in order, stop at
`maxResults` hits, render each hit. -/
def searchHits (pages : List PageIndex) (query : String) (maxResults : Int) :
    List SearchResult :=
  ((pages.filter (pageMatches (toLowerL query.data))).take maxResults.toNat).map
    (toSearchResult query)

/-- `searchDocs`: early `[]` for an empty query or non-positive
`maxResults` — before the index is built or touched, hence the index
computation is a parameter consumed only past the guard.  Otherwise collect
up to `maxResults` hits in index order and sort them title-matches-first. -/
def searchDocs (buildSearchIndex : Except String SearchIndex) (query : String)
    (maxResults : Int) : Except String (List SearchResult) :=
  if query = "" ∨ maxResults ≤ 0 then .ok []
  else
    match buildSearchIndex with
    | .error e => .error e
    | .ok searchIndex =>
      let results := searchHits searchIndex.pages query maxResults
      .ok (sortStable (cmpByTitleMatch (toLowerL query.data)) results)

/-! ## The fetch cache (`fetchPage`) and `getFunctions`, stateful

The single `this.cache` map holds both page bodies (`{content, timestamp}`)
and the memoized function lists (`{data, timestamp}`, key
`functions_<baseUrl>`); `CacheEntry` is this union of object shapes. -/

inductive CacheEntry where
  | page (content : String) (timestamp : Nat)
  | functions (data : List FunctionInfo) (timestamp : Nat)
deriving DecidableEq, Repr

def CacheEntry.timestampOf : CacheEntry → Nat
  | .page _ ts => ts
  | .functions _ ts => ts

/-- `cached.content`.  On a `functions` entry this would be JS `undefined`;
rendered as `""`, unreachable for URL keys in the theorems below. -/
def CacheEntry.contentOf : CacheEntry → String
  | .page c _ => c
  | .functions _ _ => ""

/-- `cached.data`.  On a `page` entry this would be JS `undefined`;
rendered as `[]`, unreachable for `functions_`-keys in the theorems below. -/
def CacheEntry.dataOf : CacheEntry → List FunctionInfo
  | .page _ _ => []
  | .functions d _ => d

/-- The `Map<string, any>` cache, as an association list (most recent
binding first). -/
def Cache := List (String × CacheEntry)

def getEntry (st : Cache) (k : String) : Option CacheEntry :=
  match List.find? (fun p => p.1 == k) st with
  | some p => some p.2
  | none => none

def setEntry (st : Cache) (k : String) (v : CacheEntry) : Cache :=
  (k, v) :: List.filter (fun p => p.1 != k) st

/-- `cacheTimeout = 5 * 60 * 1000` (milliseconds). -/
def cacheTimeout : Nat := 5 * 60 * 1000

/-- `isValidCache`: `Date.now() - timestamp < this.cacheTimeout`. -/
def isValidCache (now ts : Nat) : Bool := now - ts < cacheTimeout

/-- The miss path of `fetchPage`: HTTP GET; a failure (bad status or
network error) is rethrown as `Failed to fetch <url>: <cause>`; a success
is stored under the exact URL with the current time.  The `Bool` reports
that a network request was issued. -/
def fetchPageMiss (net : String → Except String String) (st : Cache) (now : Nat)
    (url : String) : Except String (String × Cache × Bool) :=
  match net url with
  | .ok content => .ok (content, setEntry st url (.page content now), true)
  | .error msg => .error ("Failed to fetch " ++ url ++ ": " ++ msg)

/-- `fetchPage`: return the cached body without network I/O while the entry
is fresh, else fetch and store. -/
def fetchPageSt (net : String → Except String String) (st : Cache) (now : Nat)
    (url : String) : Except String (String × Cache × Bool) :=
  match getEntry st url with
  | some cached =>
    if isValidCache now cached.timestampOf then .ok (cached.contentOf, st, false)
    else fetchPageMiss net st now url
  | none => fetchPageMiss net st now url

/-! ## `getFunctions` (memoized in the shared cache) -/

/-- `parseParameters`: split the first parenthesized group on commas; per
parameter the last whitespace token is the name and the rest the type,
falsy values defaulting to `"unknown"`. -/
def parseParameters (signature : String) : List ParameterInfo :=
  match signature.data.dropWhile (fun c => ¬ c = '(') with
  | [] => []
  | _ :: rest =>
    if (rest.dropWhile (fun c => ¬ c = ')')).isEmpty then []
    else
      let paramString := rest.takeWhile (fun c => ¬ c = ')')
      if (jsTrim paramString).isEmpty then []
      else
        ((splitP (fun c => c = ',') paramString).map jsTrim).map
          (fun param =>
            let parts := jsSplitWs (jsTrim param)
            let name := match parts.getLast? with
              | some w => if w.isEmpty then "unknown" else String.mk w
              | none => "unknown"
            let type := joinSpace parts.dropLast
            { name := name,
              type := if type.isEmpty then "unknown" else String.mk type,
              description := "" })

/-- Extraction of at most one `FunctionInfo` from a function sub-page
(`$(".memitem").first()`, prototype required, parenthesized prototype,
known method name). -/
def extractFunctionFromPage (html : HtmlOps) (functionUrl content : String)
    (functions : List FunctionInfo) : List FunctionInfo :=
  match (html.memItems content).head? with
  | none => functions
  | some item =>
    match item.protoText with
    | none => functions
    | some proto =>
      let prototypeText := jsTrimS proto
      if containsSubS prototypeText "(" && containsSubS prototypeText ")" then
        let name := extractMethodName prototypeText
        if name != "unknown" then
          functions ++ [{ name := name, url := functionUrl,
                          description := jsTrimS ((item.docText).getD ""),
                          signature := prototypeText,
                          parameters := parseParameters prototypeText,
                          returnType := extractReturnType prototypeText }]
        else functions
      else functions
  
/-- The per-link loop of `getFunctions`: skip falsy hrefs, resolve the URL,
fetch (an individual failure is logged and skipped), extract.  The counter
tallies network requests issued through the cache. -/
def getFunctionsLoop (net : String → Except String String) (html : HtmlOps)
    (now : Nat) (baseUrl : String) :
    List String → List FunctionInfo × Cache × Nat → List FunctionInfo × Cache × Nat
  | [], acc => acc
  | href :: rest, (functions, st, cnt) =>
    if href = "" then getFunctionsLoop net html now baseUrl rest (functions, st, cnt)
    else
      let functionUrl := if jsStartsWith href "http" then href else baseUrl ++ "/" ++ href
      match fetchPageSt net st now functionUrl with
      | .error _ => getFunctionsLoop net html now baseUrl rest (functions, st, cnt)
      | .ok (funcContent, st', used) =>
        getFunctionsLoop net html now baseUrl rest
          (extractFunctionFromPage html functionUrl funcContent functions, st',
           cnt + (if used then 1 else 0))

/-- The fetch-and-rebuild path of `getFunctions`: a failure to fetch
`index.html` is rethrown as `Unable to access documentation at ...`;
otherwise at most 3 `a[href*='function']` links are followed and the result
list is stored in the shared cache under `functions_<baseUrl>`. -/
def getFunctionsFetch (net : String → Except String String) (html : HtmlOps)
    (st : Cache) (now : Nat) (baseUrl : String) :
    Except String (List FunctionInfo × Cache × Nat) :=
  match fetchPageSt net st now (baseUrl ++ "/index.html") with
  | .error msg => .error ("Unable to access documentation at " ++ baseUrl ++ ": " ++ msg)
  | .ok (indexContent, st1, used1) =>
    let functionLinks := (html.functionHrefs indexContent).take 3
    match getFunctionsLoop net html now baseUrl functionLinks
        ([], st1, if used1 then 1 else 0) with
    | (functions, st2, cnt) =>
      .ok (functions, setEntry st2 ("functions_" ++ baseUrl) (.functions functions now), cnt)

/-- `getFunctions`: return the list memoized under `functions_<baseUrl>`
while fresh (the same `cache` map and the same 5-minute `cacheTimeout` as
page bodies), else rebuild and store. -/
def getFunctionsSt (net : String → Except String String) (html : HtmlOps)
    (st : Cache) (now : Nat) (baseUrl : String) :
    Except String (List FunctionInfo × Cache × Nat) :=
  match getEntry st ("functions_" ++ baseUrl) with
  | some cached =>
    if isValidCache now cached.timestampOf then .ok (cached.dataOf, st, 0)
    else getFunctionsFetch net html st now baseUrl
  | none => getFunctionsFetch net html st now baseUrl

/-! ## Helper lemmas -/

lemma length_dropWhile_le' (p : Char → Bool) (l : List Char) :
    (l.dropWhile p).length ≤ l.length := by
  induction l with
  | nil => simp [List.dropWhile]
  | cons a t ih =>
    simp only [List.dropWhile]
    split
    · exact Nat.le_trans ih (Nat.le_succ _)
    · exact Nat.le_refl _

lemma jsTrim_length_le (l : List Char) : (jsTrim l).length ≤ l.length := by
  unfold jsTrim
  rw [List.length_reverse]
  calc ((l.dropWhile isJsSpace).reverse.dropWhile isJsSpace).length
      ≤ (l.dropWhile isJsSpace).reverse.length := length_dropWhile_le' _ _
    _ = (l.dropWhile isJsSpace).length := List.length_reverse _
    _ ≤ l.length := length_dropWhile_le' _ _

lemma foldl_preserve {α β : Type} {P : β → Prop} (f : β → α → β)
    (hf : ∀ b a, P b → P (f b a)) : ∀ (l : List α) (b : β), P b → P (l.foldl f b) := by
  intro l
  induction l with
  | nil => intro b hb; exact hb
  | cons a t ih => intro b hb; exact ih (f b a) (hf b a hb)

lemma find?_first {α : Type} (p : α → Bool) :
    ∀ (l : List α) (a : α), l.find? p = some a →
      ∃ l₁ l₂, l = l₁ ++ a :: l₂ ∧ p a = true ∧ ∀ x ∈ l₁, p x = false := by
  intro l
  induction l with
  | nil => intro a h; simp [List.find?] at h
  | cons c t ih =>
    intro a h
    by_cases hc : p c
    · rw [List.find?_cons_of_pos _ hc] at h
      obtain rfl : c = a := by injection h
      exact ⟨[], t, rfl, hc, by simp⟩
    · rw [List.find?_cons_of_neg _ hc] at h
      obtain ⟨l₁, l₂, rfl, hp, hall⟩ := ih a h
      refine ⟨c :: l₁, l₂, rfl, hp, ?_⟩
      intro x hx
      rcases List.mem_cons.mp hx with rfl | hx'
      · exact Bool.eq_false_iff.mpr hc
      · exact hall x hx'


/-! ## C7 — method-prototype tokenization -/

/-- C7: on `"int computeSum(int a, int b)"` the tokenizers extract method
name `"computeSum"`, return type `"int"`, parameters `"int a, int b"` and
visibility `"public"`; and whenever the text before the opening parenthesis
tokenizes to a single token (just the method name), the extracted return
type is `"void"`. -/
theorem extract_tokenizer_scenario :
    extractMethodName "int computeSum(int a, int b)" = "computeSum" ∧
    extractReturnType "int computeSum(int a, int b)" = "int" ∧
    extractParameters "int computeSum(int a, int b)" = "int a, int b" ∧
    extractVisibility "int computeSum(int a, int b)" = "public" ∧
    ∀ s : String,
      (jsSplitWs (jsTrim (s.data.takeWhile (fun c => ¬ c = '(')))).length = 1 →
      extractReturnType s = "void" := by
  refine ⟨by decide, by decide, by decide, by decide, ?_⟩
  intro s h
  simp only [extractReturnType]
  by_cases hb : (s.data.takeWhile (fun c => ¬ c = '(')).isEmpty = true
  · rw [if_pos hb]
  · rw [if_neg hb]
    obtain ⟨x, hx⟩ := List.length_eq_one.mp h
    rw [hx]
    simp [joinSpace]

/-- Witness for C7's universal part at a concrete prototype. -/
theorem extract_tokenizer_scenario_witness :
    extractReturnType "computeSum(int a)" = "void" :=
  extract_tokenizer_scenario.2.2.2.2 "computeSum(int a)" (by decide)

/-! ## C8 — snippet when the query does not occur -/

/-- C8 counterexample: for body `"hello"` and query `"zzz"` (which does not
occur in it), the snippet is not the first 200 characters of the body —
the source appends `"..."` unconditionally in this branch. -/
theorem snippet_no_match_cex :
    indexOfSub (toLowerL "hello".data) (toLowerL "zzz".data) = none ∧
    createSnippetFromText "hello" "zzz" ≠ String.mk ("hello".data.take 200) := by
  decide

/-- C8 amended: with no case-insensitive occurrence of the query, the
snippet is the first 200 characters of the body followed by `"..."`. -/
theorem snippet_no_match (content query : String)
    (h : indexOfSub (toLowerL content.data) (toLowerL query.data) = none) :
    createSnippetFromText content query =
      String.mk (content.data.take 200 ++ "...".data) := by
  unfold createSnippetFromText
  simp only [h]

/-- Witness for C8's amended theorem. -/
theorem snippet_no_match_witness :
    createSnippetFromText "hello" "zzz" = String.mk ("hello".data.take 200 ++ "...".data) :=
  snippet_no_match "hello" "zzz" (by decide)

/-! ## C9 — search validation short-circuit -/

/-- C9: for an empty query or a non-positive result limit, `search` returns
`[]` immediately — for any index computation, including a failing one, so
no fetch and no index access occurs. -/
theorem searchDocs_shortcircuit (buildIndex : Except String SearchIndex)
    (query : String) (maxResults : Int) (h : query = "" ∨ maxResults ≤ 0) :
    searchDocs buildIndex query maxResults = .ok [] := by
  unfold searchDocs
  rw [if_pos h]

/-- Witness for C9 at an empty query, a failing index computation, and also
at zero and negative limits. -/
theorem searchDocs_shortcircuit_witness :
    searchDocs (.error "index build would fetch") "" 10 = .ok [] ∧
    searchDocs (.error "index build would fetch") "query" 0 = .ok [] ∧
    searchDocs (.error "index build would fetch") "query" (-1) = .ok [] :=
  ⟨searchDocs_shortcircuit _ "" 10 (Or.inl rfl),
   searchDocs_shortcircuit _ "query" 0 (Or.inr (by decide)),
   searchDocs_shortcircuit _ "query" (-1) (Or.inr (by decide))⟩

/-! ## C2 — snippet length bound -/

set_option maxRecDepth 4000 in
/-- C2 counterexample: a 300-character body containing a 250-character
query yields a snippet of 300 characters — far above 204.  The context
window is `100 + query.length + 100`, so the bound grows with the query. -/
theorem snippet_length_cex :
    204 < (createSnippetFromText (String.mk (List.replicate 300 'a'))
      (String.mk (List.replicate 250 'a'))).data.length := by
  decide

/-- C2 amended: for every body and query, the snippet's length is at most
`query.length + 206` (200 characters of context plus the query occurrence
plus two 3-character ellipses; 203 when the query does not occur). -/
theorem snippet_length_bound (content query : String) :
    (createSnippetFromText content query).data.length ≤ query.data.length + 206 := by
  unfold createSnippetFromText
  cases hidx : indexOfSub (toLowerL content.data) (toLowerL query.data) with
  | none =>
    simp only [hidx, List.length_append, List.length_take, List.length_cons, List.length_nil]
    omega
  | some qi =>
    simp only [hidx]
    apply le_trans (jsTrim_length_le _)
    have h1 : min content.data.length (qi + query.data.length + 100) ≤ qi + query.data.length + 100 :=
      Nat.min_le_right _ _
    generalize hstop : min content.data.length (qi + query.data.length + 100) = stop at h1 ⊢
    split <;> split <;>
      simp only [List.length_append, List.length_drop, List.length_take,
        List.length_cons, List.length_nil] <;> omega

/-! ## C3 — result cap and title-first ranking -/

lemma insertStable_front (qL : List Char) (x : SearchResult) (L : List SearchResult)
    (hx : titleMatches qL x = true) :
    insertStable (cmpByTitleMatch qL) x L = x :: L := by
  cases L with
  | nil => rfl
  | cons y ys =>
    have hc : cmpByTitleMatch qL x y ≤ 0 := by
      simp only [cmpByTitleMatch, hx, if_true]
      split <;> omega
    simp [insertStable, hc]

lemma insertStable_skip_front (qL : List Char) (x : SearchResult) (A B : List SearchResult)
    (hA : ∀ y ∈ A, titleMatches qL y = true) (hx : titleMatches qL x = false) :
    insertStable (cmpByTitleMatch qL) x (A ++ B) = A ++ insertStable (cmpByTitleMatch qL) x B := by
  induction A with
  | nil => rfl
  | cons a A ih =>
    have hc : ¬ cmpByTitleMatch qL x a ≤ 0 := by
      simp [cmpByTitleMatch, hx, hA a (List.mem_cons_self a A)]
    simp only [List.cons_append, insertStable, if_neg hc, List.append_eq]
    rw [ih (fun y hy => hA y (List.mem_cons_of_mem a hy))]

lemma insertStable_low (qL : List Char) (x : SearchResult) (B : List SearchResult)
    (hB : ∀ y ∈ B, titleMatches qL y = false) (hx : titleMatches qL x = false) :
    insertStable (cmpByTitleMatch qL) x B = x :: B := by
  cases B with
  | nil => rfl
  | cons y ys =>
    have hc : cmpByTitleMatch qL x y ≤ 0 := by
      simp [cmpByTitleMatch, hx, hB y (List.mem_cons_self y ys)]
    simp [insertStable, hc]

/-- `results.sort((a, b) => bTitle - aTitle)` — a stable sort on a boolean
key — is the stable partition: title matches first, original order kept
within each group. -/
lemma sortStable_partition (qL : List Char) (l : List SearchResult) :
    sortStable (cmpByTitleMatch qL) l =
      l.filter (titleMatches qL) ++ l.filter (fun r => !titleMatches qL r) := by
  induction l with
  | nil => rfl
  | cons x l ih =>
    show insertStable (cmpByTitleMatch qL) x (sortStable (cmpByTitleMatch qL) l) = _
    rw [ih]
    cases hx : titleMatches qL x with
    | true =>
      rw [insertStable_front qL x _ hx]
      simp [List.filter_cons, hx]
    | false =>
      rw [insertStable_skip_front qL x _ _ (fun y hy => (List.mem_filter.mp hy).2) hx]
      rw [insertStable_low qL x _ (fun y hy => by
        have := (List.mem_filter.mp hy).2
        simpa using this) hx]
      simp [List.filter_cons, hx]

lemma filter_self_of_all {p : SearchResult → Bool} {l : List SearchResult}
    (h : ∀ r ∈ l, p r = true) : l.filter p = l := by
  induction l with
  | nil => rfl
  | cons a t ih =>
    rw [List.filter_cons, if_pos (h a (List.mem_cons_self a t))]
    rw [ih (fun r hr => h r (List.mem_cons_of_mem a hr))]

lemma filter_nil_of_none {p : SearchResult → Bool} {l : List SearchResult}
    (h : ∀ r ∈ l, p r = false) : l.filter p = [] := by
  induction l with
  | nil => rfl
  | cons a t ih =>
    rw [List.filter_cons, if_neg (by simp [h a (List.mem_cons_self a t)])]
    exact ih (fun r hr => h r (List.mem_cons_of_mem a hr))

/-- C3: with a non-empty query and a positive limit, `search` returns at
most `maxResults` results, all title-matching results precede all
content-only results, and each group keeps the collection (index) order of
the hits `searchHits`. -/
theorem searchDocs_cap_and_rank (idx : SearchIndex) (query : String) (maxResults : Int)
    (hq : ¬ query = "") (hm : 0 < maxResults) :
    ∃ rs, searchDocs (.ok idx) query maxResults = .ok rs ∧
      rs.length ≤ maxResults.toNat ∧
      (∃ A B, rs = A ++ B ∧ (∀ r ∈ A, titleMatches (toLowerL query.data) r = true) ∧
        (∀ r ∈ B, titleMatches (toLowerL query.data) r = false)) ∧
      rs.filter (titleMatches (toLowerL query.data)) =
        (searchHits idx.pages query maxResults).filter (titleMatches (toLowerL query.data)) ∧
      rs.filter (fun r => !titleMatches (toLowerL query.data) r) =
        (searchHits idx.pages query maxResults).filter
          (fun r => !titleMatches (toLowerL query.data) r) := by
  have hcond : ¬ (query = "" ∨ maxResults ≤ 0) := by
    push_neg
    exact ⟨hq, hm⟩
  set qL := toLowerL query.data with hqL
  set hits := searchHits idx.pages query maxResults with hhits
  have hA : ∀ r ∈ hits.filter (titleMatches qL), titleMatches qL r = true :=
    fun r hr => (List.mem_filter.mp hr).2
  have hB : ∀ r ∈ hits.filter (fun r => !titleMatches qL r), titleMatches qL r = false :=
    fun r hr => by simpa using (List.mem_filter.mp hr).2
  refine ⟨hits.filter (titleMatches qL) ++ hits.filter (fun r => !titleMatches qL r),
    ?_, ?_, ?_, ?_, ?_⟩
  · unfold searchDocs
    rw [if_neg hcond]
    dsimp only
    rw [sortStable_partition]
  · rw [List.length_append]
    have hlen : hits.length = (hits.filter (titleMatches qL)).length +
        (hits.filter (fun r => !titleMatches qL r)).length :=
      List.length_eq_length_filter_add _
    have : hits.length ≤ maxResults.toNat := by
      rw [hhits]
      unfold searchHits
      rw [List.length_map]
      exact le_trans (List.length_take_le _ _) (le_refl _)
    omega
  · exact ⟨_, _, rfl, hA, hB⟩
  · rw [List.filter_append, filter_self_of_all hA, filter_nil_of_none (p := titleMatches qL) hB]
    rw [List.append_nil]
  · rw [List.filter_append, filter_nil_of_none (p := fun r => !titleMatches qL r)
      (fun r hr => by simp [hA r hr]), filter_self_of_all
      (fun r hr => by simp [hB r hr])]
    rw [List.nil_append]

/-- A concrete two-page index for the C3 witness. -/
def c3Index : SearchIndex :=
  { pages :=
      [{ url := "u1", title := "T", content := "body with x", type := "page",
         «section» := "main", timestamp := 0 },
       { url := "u2", title := "x title", content := "body", type := "class",
         «section» := "classes", timestamp := 0 }],
    timestamp := 0, baseUrl := "b" }

/-- Witness for C3 on a two-page index. -/
theorem searchDocs_cap_and_rank_witness :
    ∃ rs, searchDocs (.ok c3Index) "x" 5 = .ok rs ∧ rs.length ≤ (5 : Int).toNat := by
  obtain ⟨rs, h1, h2, -⟩ := searchDocs_cap_and_rank c3Index "x" 5 (by decide) (by decide)
  exact ⟨rs, h1, h2⟩

/-! ## C4 — navigation error propagation vs. listClasses -/

/-- The trivial DOM selections, for witnesses on empty or unreachable
pages. -/
def emptyHtml : HtmlOps :=
  { navAnchors := fun _ => [], tableRows := fun _ => [], classAnchors := fun _ => [],
    dtEntries := fun _ => [], memItems := fun _ => [], memberCells := fun _ => [],
    inheritTexts := fun _ => [], functionHrefs := fun _ => [] }

/-- C4: `getNavigationStructure` fails exactly when the main index page
cannot be fetched (module/class/file sub-extraction failures are absorbed,
being caught in the source and total here), while `listClasses` on a fully
unreachable site never fails — it is a total function — and returns `[]`. -/
theorem getNavigation_vs_listClasses (f : String → Except String String)
    (html : HtmlOps) (baseUrl : String) :
    ((getNavigationStructure f html baseUrl).isOk = (f (baseUrl ++ "/index.html")).isOk) ∧
    ((∀ u, (f u).isOk = false) → listClasses f html baseUrl = []) := by
  constructor
  · cases h : f (baseUrl ++ "/index.html") with
    | error e => simp [getNavigationStructure, h, Except.isOk, Except.toBool]
    | ok v => simp [getNavigationStructure, h, Except.isOk, Except.toBool]
  · intro hall
    have herr : ∀ u, ∃ e, f u = .error e := by
      intro u
      have hu := hall u
      cases h : f u with
      | ok v => rw [h] at hu; simp [Except.isOk, Except.toBool] at hu
      | error e => exact ⟨e, rfl⟩
    by_cases hb : baseUrl = ""
    · simp [listClasses, hb]
    · obtain ⟨e1, h1⟩ := herr (baseUrl ++ "/" ++ "annotated.html")
      obtain ⟨e2, h2⟩ := herr (baseUrl ++ "/" ++ "classes.html")
      obtain ⟨e3, h3⟩ := herr (baseUrl ++ "/" ++ "hierarchy.html")
      simp [listClasses, hb, possibleClassPages, h1, h2, h3]

/-- Witness for C4 at a network that refuses every connection. -/
theorem getNavigation_vs_listClasses_witness :
    listClasses (fun _ => Except.error "ECONNREFUSED") emptyHtml "http://unreachable" = [] ∧
    (getNavigationStructure (fun _ => Except.error "ECONNREFUSED") emptyHtml
      "http://unreachable").isOk = false := by
  obtain ⟨h1, h2⟩ := getNavigation_vs_listClasses
    (fun _ => Except.error "ECONNREFUSED") emptyHtml "http://unreachable"
  exact ⟨h2 (fun u => rfl), by rw [h1]; rfl⟩

/-! ## C5 — listClasses name uniqueness -/

lemma pairwise_push (cs : List ClassInfo) (c : ClassInfo)
    (hp : cs.Pairwise (fun a b => a.name ≠ b.name))
    (hdup : cs.any (fun c' => c'.name == c.name) = false) :
    (cs ++ [c]).Pairwise (fun a b => a.name ≠ b.name) := by
  rw [List.pairwise_append]
  refine ⟨hp, List.pairwise_singleton _ _, ?_⟩
  intro a ha b hb
  rw [List.mem_singleton] at hb
  subst hb
  rw [List.any_eq_false] at hdup
  have := hdup a ha
  simpa using this

lemma pushClassIfNew_pairwise (cs : List ClassInfo) (c : ClassInfo)
    (hp : cs.Pairwise (fun a b => a.name ≠ b.name)) :
    (pushClassIfNew cs c).Pairwise (fun a b => a.name ≠ b.name) := by
  unfold pushClassIfNew
  split
  · exact hp
  · next h => exact pairwise_push cs c hp (Bool.eq_false_iff.mpr h)

lemma listClassesPage_pairwise (html : HtmlOps) (baseUrl page content : String)
    (cs : List ClassInfo) (hp : cs.Pairwise (fun a b => a.name ≠ b.name)) :
    (listClassesPage html baseUrl page content cs).Pairwise (fun a b => a.name ≠ b.name) := by
  unfold listClassesPage
  apply foldl_preserve
  · intro b d hb
    dsimp only
    split
    · exact pushClassIfNew_pairwise _ _ hb
    · exact hb
  · apply foldl_preserve
    · intro b a hb
      dsimp only
      split
      · next h =>
        simp only [Bool.and_eq_true, Bool.not_eq_true'] at h
        exact pairwise_push _ _ hb h.2
      · exact hb
    · exact hp

/-- C5: a single `listClasses` invocation never returns two entries with
the same exact name — every push site checks
`!classes.some(c => c.name === name)` against everything collected so far,
across pages and extraction patterns. -/
theorem listClasses_unique_names (f : String → Except String String)
    (html : HtmlOps) (baseUrl : String) :
    (listClasses f html baseUrl).Pairwise (fun a b => a.name ≠ b.name) := by
  unfold listClasses
  split
  · exact List.Pairwise.nil
  · apply foldl_preserve
    · intro cs page hcs
      cases h : f (baseUrl ++ "/" ++ page) with
      | error e => simpa [h] using hcs
      | ok content =>
        exact listClassesPage_pairwise html baseUrl page content cs hcs
    · exact List.Pairwise.nil

/-! ## C6 — fetch cache freshness -/
lemma getEntry_setEntry_self (st : Cache) (k : String) (v : CacheEntry) :
    getEntry (setEntry st k v) k = some v := by
  simp [getEntry, setEntry, List.find?]

lemma fetchPageMiss_ok (net : String → Except String String) (st : Cache) (now : Nat)
    (url b : String) (st' : Cache) (used : Bool)
    (h : fetchPageMiss net st now url = .ok (b, st', used)) :
    st' = setEntry st url (.page b now) ∧ used = true := by
  unfold fetchPageMiss at h
  cases hn : net url with
  | ok content =>
    rw [hn] at h
    simp only [Except.ok.injEq, Prod.mk.injEq] at h
    obtain ⟨hb, hst, hused⟩ := h
    subst hb
    exact ⟨hst.symm, hused.symm⟩
  | error msg =>
    rw [hn] at h
    simp at h

/-- C6: after any successful `fetchPage` of `u`, the cache holds the
returned body under some timestamp `ts` that is still fresh (and `ts` is
the fetch time when the call used the network); any second call within the
5-minute freshness window of that entry returns the identical body, leaves
the cache untouched, and issues no network request — it does not even
consult the network parameter. -/
theorem fetchPage_fresh (net : String → Except String String) (st : Cache)
    (now : Nat) (url : String) (b : String) (st' : Cache) (used : Bool)
    (h : fetchPageSt net st now url = .ok (b, st', used)) :
    ∃ ts, (getEntry st' url).map CacheEntry.timestampOf = some ts ∧
      now - ts < cacheTimeout ∧ (used = true → ts = now) ∧
      ∀ (net₂ : String → Except String String) (t₂ : Nat), t₂ - ts < cacheTimeout →
        fetchPageSt net₂ st' t₂ url = .ok (b, st', false) := by
  unfold fetchPageSt at h
  cases hget : getEntry st url with
  | some cached =>
    rw [hget] at h
    dsimp only at h
    by_cases hvalid : isValidCache now cached.timestampOf = true
    · rw [if_pos hvalid] at h
      simp only [Except.ok.injEq, Prod.mk.injEq] at h
      obtain ⟨hb, hst, hused⟩ := h
      subst hb
      subst hused
      refine ⟨cached.timestampOf, ?_, ?_, by simp, ?_⟩
      · rw [hst] at hget
        rw [hget]
        rfl
      · simpa [isValidCache] using hvalid
      · intro net₂ t₂ ht
        unfold fetchPageSt
        rw [hst] at hget
        rw [hget]
        dsimp only
        rw [if_pos (by simpa [isValidCache] using ht)]
    · rw [if_neg hvalid] at h
      obtain ⟨hst, hused⟩ := fetchPageMiss_ok net st now url _ st' used h
      subst hst
      subst hused
      refine ⟨now, by rw [getEntry_setEntry_self]; rfl, by simp [cacheTimeout],
        fun _ => rfl, ?_⟩
      intro net₂ t₂ ht
      unfold fetchPageSt
      rw [getEntry_setEntry_self]
      dsimp only
      rw [if_pos (by simpa [isValidCache] using ht)]
      simp [CacheEntry.contentOf]
  | none =>
    rw [hget] at h
    dsimp only at h
    obtain ⟨hst, hused⟩ := fetchPageMiss_ok net st now url _ st' used h
    subst hst
    subst hused
    refine ⟨now, by rw [getEntry_setEntry_self]; rfl, by simp [cacheTimeout],
      fun _ => rfl, ?_⟩
    intro net₂ t₂ ht
    unfold fetchPageSt
    rw [getEntry_setEntry_self]
    dsimp only
    rw [if_pos (by simpa [isValidCache] using ht)]
    simp [CacheEntry.contentOf]

/-- Witness for C6: populate at time 0, re-fetch at time 100 against a
dead network. -/
theorem fetchPage_fresh_witness :
    fetchPageSt (fun _ => Except.error "network down")
      [("http://s/index.html", CacheEntry.page "body" 0)] 100 "http://s/index.html" =
      .ok ("body", [("http://s/index.html", CacheEntry.page "body" 0)], false) := by
  obtain ⟨ts, h1, h2, h3, h4⟩ := fetchPage_fresh (fun _ => Except.ok "body") [] 0
    "http://s/index.html" "body" [("http://s/index.html", CacheEntry.page "body" 0)] true rfl
  have hts : ts = 0 := h3 rfl
  subst hts
  exact h4 (fun _ => Except.error "network down") 100 (by decide)

/-! ## C10 — getFunctions memoization in the shared cache -/
/-- C10: a `getFunctions` call that computes its list stores it in the
same `cache` map as raw page bodies (the `Cache` threaded through
`fetchPageSt`), under key `functions_<baseUrl>` with the call time; any
second call within the shared 5-minute `cacheTimeout` window returns the
stored list unchanged, with zero network requests, for any network and any
DOM. -/
theorem getFunctions_memoized (net : String → Except String String) (html : HtmlOps)
    (st : Cache) (now : Nat) (baseUrl : String) (fns : List FunctionInfo)
    (st' : Cache) (k : Nat)
    (h1 : getEntry st ("functions_" ++ baseUrl) = none)
    (h2 : getFunctionsSt net html st now baseUrl = .ok (fns, st', k)) :
    getEntry st' ("functions_" ++ baseUrl) = some (.functions fns now) ∧
    ∀ (net₂ : String → Except String String) (html₂ : HtmlOps) (t₂ : Nat),
      t₂ - now < cacheTimeout →
      getFunctionsSt net₂ html₂ st' t₂ baseUrl = .ok (fns, st', 0) := by
  unfold getFunctionsSt at h2
  rw [h1] at h2
  dsimp only at h2
  unfold getFunctionsFetch at h2
  cases hfp : fetchPageSt net st now (baseUrl ++ "/index.html") with
  | error msg =>
    rw [hfp] at h2
    simp at h2
  | ok res =>
    rw [hfp] at h2
    obtain ⟨indexContent, st1, used1⟩ := res
    dsimp only at h2
    cases hloop : getFunctionsLoop net html now baseUrl
        ((html.functionHrefs indexContent).take 3) ([], st1, if used1 = true then 1 else 0) with
    | mk functions rest =>
      obtain ⟨st2, cnt⟩ := rest
      rw [hloop] at h2
      dsimp only at h2
      simp only [Except.ok.injEq, Prod.mk.injEq] at h2
      obtain ⟨hfns, hst, hcnt⟩ := h2
      subst hfns
      subst hst
      constructor
      · rw [getEntry_setEntry_self]
      · intro net₂ html₂ t₂ ht
        unfold getFunctionsSt
        rw [getEntry_setEntry_self]
        dsimp only
        rw [if_pos (by simpa [isValidCache] using ht)]
        simp [CacheEntry.dataOf]

def memoNet : String → Except String String := fun _ => Except.ok "index body"

/-- Witness for C10: a first call at time 0 stores the (empty) function
list under `functions_http://s`; a second call at time 200 against a dead
network returns it from the shared cache with zero network requests. -/
theorem getFunctions_memoized_witness :
    getFunctionsSt (fun _ => Except.error "network down") emptyHtml
      [("functions_http://s", CacheEntry.functions [] 0),
       ("http://s/index.html", CacheEntry.page "index body" 0)] 200 "http://s" =
      .ok ([], [("functions_http://s", CacheEntry.functions [] 0),
        ("http://s/index.html", CacheEntry.page "index body" 0)], 0) := by
  obtain ⟨hstore, hsecond⟩ := getFunctions_memoized memoNet emptyHtml [] 0 "http://s" []
    [("functions_http://s", CacheEntry.functions [] 0),
     ("http://s/index.html", CacheEntry.page "index body" 0)] 1 rfl rfl
  exact hsecond (fun _ => Except.error "network down") emptyHtml 200 (by decide)

/-! ## C1 — class selection order in getClassDetails -/
/-- A site whose `annotated.html` lists `FooBar` before `Foo` (the other
listing pages are 404). -/
def cexFetch : String → Except String String := fun u =>
  if u = "http://s/annotated.html" then Except.ok "LISTING"
  else if u = "http://s/classFooBar.html" then Except.ok "CLASSPAGE"
  else Except.error "HTTP 404: Not Found"

def cexHtml : HtmlOps :=
  { emptyHtml with
    classAnchors := fun body =>
      if body = "LISTING" then
        [{ href := "classFooBar.html", text := "FooBar", briefText := "", rowText := "" },
         { href := "classFoo.html", text := "Foo", briefText := "", rowText := "" }]
      else [] }

/-- The details `getClassDetails` produces for the `FooBar` page. -/
def cexDetails : ClassDetails :=
  { info := { name := "FooBar", url := "http://s/classFooBar.html", description := "",
              «namespace» := none, «section» := some "annotated.html" },
    methods := [], properties := [],
    inheritance := { baseClasses := [], derivedClasses := [] } }

/-- C1 counterexample: the listing holds `FooBar` (a mere substring match
for `"Foo"`) before the exact match `Foo`, and `getClassDetails` selects
`FooBar`: `classes.find` evaluates the three criteria as one disjunction
per entry, so listing order, not match quality, decides. -/
theorem getClassDetails_order_cex :
    (listClasses cexFetch cexHtml "http://s").map ClassInfo.name = ["FooBar", "Foo"] ∧
    getClassDetails cexFetch cexHtml "http://s" "Foo" = .ok (some cexDetails) ∧
    cexDetails.info.name ≠ "Foo" :=
  ⟨rfl, rfl, by decide⟩

/-- C1 amended: `getClassDetails` selects the first entry in listing
order whose name matches the query by exact equality, case-insensitive
equality, or substring containment — a single disjunction, with no
preference among the three criteria. -/
theorem getClassDetails_first_match (f : String → Except String String) (html : HtmlOps)
    (baseUrl className : String) (d : ClassDetails)
    (h : getClassDetails f html baseUrl className = .ok (some d)) :
    ∃ l₁ c l₂, listClasses f html baseUrl = l₁ ++ c :: l₂ ∧
      classNameMatches className c = true ∧
      (∀ c' ∈ l₁, classNameMatches className c' = false) ∧ d.info = c := by
  unfold getClassDetails at h
  dsimp only at h
  cases hfind : (listClasses f html baseUrl).find? (classNameMatches className) with
  | none =>
    rw [hfind] at h
    simp at h
  | some classInfo =>
    rw [hfind] at h
    dsimp only at h
    cases hfp : f classInfo.url with
    | error e =>
      rw [hfp] at h
      simp at h
    | ok content =>
      rw [hfp] at h
      dsimp only at h
      simp only [Except.ok.injEq, Option.some.injEq] at h
      obtain ⟨l₁, l₂, heq, hp, hall⟩ := find?_first _ _ _ hfind
      exact ⟨l₁, classInfo, l₂, heq, hp, hall, by rw [← h]⟩

/-- Witness for C1's amended theorem at the counterexample site. -/
theorem getClassDetails_first_match_witness :
    ∃ l₁ c l₂, listClasses cexFetch cexHtml "http://s" = l₁ ++ c :: l₂ ∧
      classNameMatches "Foo" c = true ∧
      (∀ c' ∈ l₁, classNameMatches "Foo" c' = false) ∧ cexDetails.info = c :=
  getClassDetails_first_match cexFetch cexHtml "http://s" "Foo" cexDetails rfl
